import Mathlib

/-!
Shallow embedding of `pytest_bootstrap.bootstrap_test`
(file `pytest_bootstrap/__init__.py`).

The random resampling loop is abstracted away: every claim below concerns the
processing of the stacked replicate collection `statistics = np.asarray([...])`,
so the embedding takes the stacked collection as input.  Machine floats are
modelled by exact rationals; the standard deviation (the only irrational
quantity in the source) is tracked through its exact square, so the z-score
`(reference - mean) / std` is represented by the pair of its numerator
`reference - mean` and the population variance `std ** 2`.
-/

namespace PytestBootstrap

/-- A numpy value that is either a scalar (`ndim == 0`) or a vector
(`ndim == 1`), as produced by broadcasting arithmetic on `reference`,
`lower`, `upper` and `tol` in the source. -/
inductive Val where
  | s (x : ℚ)
  | v (xs : List ℚ)
deriving DecidableEq

/-- numpy elementwise unary operation (e.g. `np.abs(reference)` or
`reference - mean`). -/
def Val.map (f : ℚ → ℚ) : Val → Val
  | .s x => .s (f x)
  | .v xs => .v (xs.map f)

/-- numpy elementwise binary operation with scalar broadcasting
(e.g. `lower - tol`, `upper + tol`).  Whenever the source applies it to two
vectors they have equal length. -/
def Val.zipWith (f : ℚ → ℚ → ℚ) : Val → Val → Val
  | .s x, .s y => .s (f x y)
  | .s x, .v ys => .v (ys.map (fun y => f x y))
  | .v xs, .s y => .v (xs.map (fun x => f x y))
  | .v xs, .v ys => .v (List.zipWith f xs ys)

/-- Evaluation of `np.any(a REL b)` for an elementwise comparison, with scalar
broadcasting. -/
def Val.anyRel (p : ℚ → ℚ → Bool) : Val → Val → Bool
  | .s x, .s y => p x y
  | .s x, .v ys => ys.any (fun y => p x y)
  | .v xs, .s y => xs.any (fun x => p x y)
  | .v xs, .v ys => (List.zipWith p xs ys).any id

/-- Component of a broadcast value at dimension `j`: a scalar broadcasts to
every dimension, a vector is indexed. -/
def Val.atD : Val → ℕ → ℚ
  | .s x, _ => x
  | .v xs, j => xs.getD j 0

/-- The stacked replicate collection `statistics = np.asarray([...])`,
classified by its dimensionality: `scalar xs` is a one-dimensional array of
scalar statistics, `vector k rows` a two-dimensional array with
`shape[1] = k` (one row per bootstrap replicate), and `tensor d flat` an
array of `d + 3` dimensions (its contents are irrelevant to the source,
which rejects such arrays by dimensionality alone). -/
inductive Replicates where
  | scalar (xs : List ℚ)
  | vector (k : ℕ) (rows : List (List ℚ))
  | tensor (d : ℕ) (flat : List ℚ)
deriving DecidableEq

/-- The dimensionality `statistics.ndim`. -/
def Replicates.ndim : Replicates → ℕ
  | .scalar _ => 1
  | .vector _ _ => 2
  | .tensor d _ => d + 3

/-- The flattened array, as consumed by `np.mean`, `np.std`, `np.median` and
`np.percentile` without an `axis` argument. -/
def Replicates.flat : Replicates → List ℚ
  | .scalar xs => xs
  | .vector _ rows => rows.flatten
  | .tensor _ fl => fl

/-- Number of output dimensions of the statistic: 1 for a scalar statistic,
`statistics.shape[1]` for a vector statistic. -/
def Replicates.outDims : Replicates → ℕ
  | .scalar _ => 1
  | .vector k _ => k
  | .tensor _ _ => 0

/-- Column `j` of the collection: the slice reduced by
`np.percentile(..., axis=0)` at output dimension `j`.  For a scalar
statistic the only column is the collection itself. -/
def Replicates.col : Replicates → ℕ → List ℚ
  | .scalar xs, _ => xs
  | .vector _ rows, j => rows.map (fun row => row.getD j 0)
  | .tensor _ _, _ => []

/-- The value passed as `multiple_hypothesis_correction`: Python `False` /
`None` (falsy, which disables correction as the docstring prescribes) or a
string naming a policy. -/
inductive Correction where
  | disabled
  | policy (nm : String)
deriving DecidableEq

/-- Python truthiness of the `multiple_hypothesis_correction` argument, as
tested by `elif multiple_hypothesis_correction:`.  A string is truthy iff it
is nonempty. -/
def Correction.truthy : Correction → Bool
  | .disabled => false
  | .policy nm => nm ≠ ""

/-- String rendering of the correction argument, as interpolated into the
`NotImplementedError` message. -/
def Correction.render : Correction → String
  | .disabled => "False"
  | .policy nm => nm

/-- Evaluation of `np.mean` on a flattened array. -/
def listMean (l : List ℚ) : ℚ := l.sum / l.length

/-- The square of `np.std(l)` with the default `ddof=0`: the mean squared deviation
from the mean (population variance). -/
def popVar (l : List ℚ) : ℚ := listMean (l.map (fun x => (x - listMean l) ^ 2))

/-- Linear interpolation into a sorted list at fractional position `h`
(numpy's default `interpolation='linear'`): with `i = ⌊h⌋`, the result is
`s[i] + (h - i) * (s[i+1] - s[i])`, the upper index clamped to the last
element. -/
def interpAt (s : List ℚ) (h : ℚ) : ℚ :=
  let i : ℕ := (⌊h⌋).toNat
  let lo := s.getD i 0
  let hi := s.getD (min (i + 1) (s.length - 1)) 0
  lo + (h - (i : ℚ)) * (hi - lo)

/-- Evaluation of `np.percentile(l, q)` on a one-dimensional array: sort ascending and
interpolate linearly at position `q / 100 * (n - 1)`. -/
def percentile (l : List ℚ) (q : ℚ) : ℚ :=
  let s := List.insertionSort (fun a b => a ≤ b) l
  interpAt s (q * ((s.length : ℚ) - 1) / 100)

/-- Evaluation of `np.median(l)`: middle element of the sorted flattened array, or the
average of the two middle elements when the length is even. -/
def npMedian (l : List ℚ) : ℚ :=
  let s := List.insertionSort (fun a b => a ≤ b) l
  let n := s.length
  if n % 2 = 1 then s.getD (n / 2) 0
  else (s.getD (n / 2 - 1) 0 + s.getD (n / 2) 0) / 2

/-- The `result` dictionary built by `bootstrap_test`.  The `statistics` key
is absent (`none`) until the source executes
`result['statistics'] = statistics`, which happens only after the
accept/reject decision. -/
structure ResultRec where
  alpha : ℚ
  alpha_corrected : ℚ
  reference : Val
  lower : Val
  upper : Val
  z_num : Val
  z_var : ℚ
  median : ℚ
  iqr : ℚ
  tol : Val
  statistics : Option Replicates
deriving DecidableEq

/-- The dictionary literal of the source.  Note the source populates the
`alpha_corrected` key with `alpha`, not with the local variable
`alpha_corrected`; the embedding mirrors that line verbatim. -/
def buildResult (fl : List ℚ) (lower upper : Val) (reference : Val)
    (alpha rtol atol : ℚ) : ResultRec :=
  { alpha := alpha
    alpha_corrected := alpha
    reference := reference
    lower := lower
    upper := upper
    z_num := reference.map (fun r => r - listMean fl)
    z_var := popVar fl
    median := npMedian fl
    iqr := percentile fl 75 - percentile fl 25
    tol := reference.map (fun r => atol + rtol * |r|)
    statistics := none }

/-- The result dictionary as a function of the collection and the (local)
corrected significance level: `lower, upper = np.percentile(statistics,
[100 * ac / 2, 100 * (1 - ac / 2)], axis=0)` followed by the dictionary
literal.  The `tensor` branch is unreachable: the source raises on
`ndim > 2` before constructing any result. -/
def recordOf (stats : Replicates) (reference : Val) (alpha ac rtol atol : ℚ) :
    ResultRec :=
  match stats with
  | .scalar xs =>
      buildResult xs (.s (percentile xs (100 * ac / 2)))
        (.s (percentile xs (100 * (1 - ac / 2)))) reference alpha rtol atol
  | .vector k rows =>
      buildResult rows.flatten
        (.v ((List.range k).map (fun j =>
          percentile ((Replicates.vector k rows).col j) (100 * ac / 2))))
        (.v ((List.range k).map (fun j =>
          percentile ((Replicates.vector k rows).col j) (100 * (1 - ac / 2)))))
        reference alpha rtol atol
  | .tensor _ _ =>
      buildResult [] (.s 0) (.s 0) reference alpha rtol atol

/-- The error `BootstrapTestError(result)`: it stores the result dictionary
and formats a message from it. -/
structure BootstrapTestFailure where
  result : ResultRec
  message : String
deriving DecidableEq

/-- Rendering of a numpy value inside the error message. -/
def Val.render : Val → String
  | .s x => toString x
  | .v xs => toString xs

/-- The message formatted by `BootstrapTestError.__init__`. -/
def btMessage (r : ResultRec) : String :=
  "the reference value " ++ r.reference.render ++
    " lies outside the 1 - (alpha = " ++ toString r.alpha ++
    ") interval [" ++ r.lower.render ++ ", " ++ r.upper.render ++ "]"

/-- Warnings emitted through `warnings.warn`. -/
inductive Warn where
  | smallSample (numBootstrap : ℕ)
  | testFail (e : BootstrapTestFailure)
deriving DecidableEq

/-- Exceptions raised by `bootstrap_test`: the `ValueError` on `ndim > 2`
(the spec's DimensionError), the `NotImplementedError` on an unsupported
correction (the spec's UnsupportedCorrectionError), `BootstrapTestError`,
and the `ValueError(on_fail)` on an unrecognized `on_fail` (the spec's
InvalidConfigurationError). -/
inductive Err where
  | dimension (ndim : ℕ)
  | unsupportedCorrection (nm : String)
  | testError (e : BootstrapTestFailure)
  | invalidOnFail (value : String)
deriving DecidableEq

/-- The warning line `if alpha_corrected < 1 / num_bootstrap_samples: warnings.warn(...)`. -/
def smallWarn (ac : ℚ) (numBootstrap : ℕ) : List Warn :=
  if ac < 1 / (numBootstrap : ℚ) then [Warn.smallSample numBootstrap] else []

/-- Lines 77-109 of the source: the dimensionality check, the multiple
hypothesis correction, the tail-resolution warning, the interval and the
result dictionary.  Returns the emitted warnings and either the error raised
or the pair of the local variable `alpha_corrected` and the result. -/
def computeResult (stats : Replicates) (reference : Val) (alpha rtol atol : ℚ)
    (mhc : Correction) (numBootstrap : ℕ) :
    List Warn × Except Err (ℚ × ResultRec) :=
  match stats with
  | .tensor d fl =>
      ([], .error (.dimension (Replicates.tensor d fl).ndim))
  | .scalar xs =>
      (smallWarn alpha numBootstrap,
        .ok (alpha, recordOf (.scalar xs) reference alpha alpha rtol atol))
  | .vector k rows =>
      if mhc = .policy "bonferroni" then
        (smallWarn (alpha / k) numBootstrap,
          .ok (alpha / k,
            recordOf (.vector k rows) reference alpha (alpha / k) rtol atol))
      else if mhc.truthy then
        ([], .error (.unsupportedCorrection mhc.render))
      else
        (smallWarn alpha numBootstrap,
          .ok (alpha, recordOf (.vector k rows) reference alpha alpha rtol atol))

/-- The test `np.any(reference < lower - tol) or np.any(reference > upper + tol)`. -/
def decisionFails (r : ResultRec) : Bool :=
  r.reference.anyRel (fun a b => decide (a < b))
      (Val.zipWith (fun a b => a - b) r.lower r.tol)
    || r.reference.anyRel (fun a b => decide (b < a))
      (Val.zipWith (fun a b => a + b) r.upper r.tol)

/-- The whole of `bootstrap_test` after the resampling loop: compute the
result, decide, route the failure according to `on_fail`, and attach the
replicate collection to the returned dictionary. -/
def bootstrap_test (stats : Replicates) (reference : Val)
    (alpha rtol atol : ℚ) (mhc : Correction) (numBootstrap : ℕ)
    (on_fail : String) : List Warn × Except Err ResultRec :=
  match computeResult stats reference alpha rtol atol mhc numBootstrap with
  | (ws, .error e) => (ws, .error e)
  | (ws, .ok (_, r)) =>
      if decisionFails r then
        let e : BootstrapTestFailure := { result := r, message := btMessage r }
        if on_fail = "raise" then (ws, .error (.testError e))
        else if on_fail = "warn" then
          (ws ++ [Warn.testFail e], .ok { r with statistics := some stats })
        else (ws, .error (.invalidOnFail on_fail))
      else (ws, .ok { r with statistics := some stats })

/-! ### Claim-side (specification) definitions -/

/-- The empirical quantile at tail probability `p`, by linear interpolation
between order statistics: position `p * (n - 1)` in the ascending order
statistics.  (Spec formulation; `percentile` is its 100-scaled source
counterpart.) -/
def quantileSpec (l : List ℚ) (p : ℚ) : ℚ :=
  let s := List.insertionSort (fun a b => a ≤ b) l
  interpAt s (p * ((s.length : ℚ) - 1))

/-- Population variance as the spec words it: sum of squared deviations from
the mean divided by the number of observations (not by `n - 1`). -/
def popVarSpec (l : List ℚ) : ℚ :=
  (l.map (fun x => (x - listMean l) ^ 2)).sum / l.length

/-- The corrected significance level the spec prescribes: `alpha / k` under
Bonferroni correction of a vector statistic, `alpha` otherwise. -/
def alphaCorrectedSpec (mhc : Correction) (alpha : ℚ) (stats : Replicates) : ℚ :=
  match stats with
  | .vector k _ => if mhc = .policy "bonferroni" then alpha / k else alpha
  | _ => alpha

/-- The reference value matches the statistic's output shape (a scalar
broadcasts). -/
def RefCompat (reference : Val) (stats : Replicates) : Prop :=
  match reference with
  | .s _ => True
  | .v xs => xs.length = stats.outDims

/-- The correction argument is one the source accepts for a vector
statistic. -/
def CorrectionOK (mhc : Correction) (stats : Replicates) : Prop :=
  match stats with
  | .vector _ _ => mhc = .disabled ∨ mhc = .policy "bonferroni"
  | _ => True

/-- The spec's failure condition: some output dimension has the reference
below `lower - tol` or above `upper + tol`. -/
def specFails (r : ResultRec) (k : ℕ) : Prop :=
  ∃ j < k, r.reference.atD j < r.lower.atD j - r.tol.atD j ∨
    r.upper.atD j + r.tol.atD j < r.reference.atD j

/-! ### Accessors used to state the claims -/

/-- The result record of a successful pre-decision computation. -/
def recOf (out : List Warn × Except Err (ℚ × ResultRec)) : Option ResultRec :=
  match out.2 with
  | .ok p => some p.2
  | .error _ => none

/-- The local variable `alpha_corrected` of a successful pre-decision
computation. -/
def acOf (out : List Warn × Except Err (ℚ × ResultRec)) : Option ℚ :=
  match out.2 with
  | .ok p => some p.1
  | .error _ => none

/-- The interval and summary fields of the result record (everything the
tolerance parameters must not influence). -/
def fieldsView (out : List Warn × Except Err (ℚ × ResultRec)) :
    Option (Val × Val × ℚ × ℚ × Val × ℚ) :=
  (recOf out).map (fun r => (r.lower, r.upper, r.median, r.iqr, r.z_num, r.z_var))

/-- The record carried by a raised `BootstrapTestError`, if any. -/
def raisedRecord (out : List Warn × Except Err ResultRec) : Option ResultRec :=
  match out.2 with
  | .error (.testError e) => some e.result
  | _ => none

/-! ### Basic lemmas -/

theorem any_getD (l : List ℚ) (p : ℚ → Bool) :
    l.any p = true ↔ ∃ j < l.length, p (l.getD j 0) = true := by
  induction l with
  | nil => simp
  | cons a l ih =>
      simp only [List.any_cons, Bool.or_eq_true, ih, List.length_cons]
      constructor
      · rintro (h | ⟨j, hj, hp⟩)
        · exact ⟨0, Nat.succ_pos _, h⟩
        · exact ⟨j + 1, Nat.succ_lt_succ hj, hp⟩
      · rintro ⟨j, hj, hp⟩
        cases j with
        | zero => exact Or.inl hp
        | succ j => exact Or.inr ⟨j, Nat.lt_of_succ_lt_succ hj, hp⟩

theorem any_zipWith_getD (p : ℚ → ℚ → Bool) (xs ys : List ℚ)
    (h : xs.length = ys.length) :
    (List.zipWith p xs ys).any id = true ↔
      ∃ j < xs.length, p (xs.getD j 0) (ys.getD j 0) = true := by
  induction xs generalizing ys with
  | nil => simp
  | cons a xs ih =>
      cases ys with
      | nil => simp at h
      | cons b ys =>
          simp only [List.zipWith_cons_cons, List.any_cons, Bool.or_eq_true, id,
            ih ys (by simpa using h), List.length_cons]
          constructor
          · rintro (hp | ⟨j, hj, hp⟩)
            · exact ⟨0, Nat.succ_pos _, hp⟩
            · exact ⟨j + 1, Nat.succ_lt_succ hj, hp⟩
          · rintro ⟨j, hj, hp⟩
            cases j with
            | zero => exact Or.inl hp
            | succ j => exact Or.inr ⟨j, Nat.lt_of_succ_lt_succ hj, hp⟩

/-- Linear interpolation at the middle position gives the middle element for
an odd length and the average of the two middle elements for an even
length. -/
theorem interp_half (s : List ℚ) (hs : s ≠ []) :
    interpAt s ((1 / 2) * ((s.length : ℚ) - 1)) =
      if s.length % 2 = 1 then s.getD (s.length / 2) 0
      else (s.getD (s.length / 2 - 1) 0 + s.getD (s.length / 2) 0) / 2 := by
  have hpos : 0 < s.length := List.length_pos.mpr hs
  rcases Nat.even_or_odd s.length with he | ho
  · obtain ⟨m, hm⟩ := he
    have hm1 : 1 ≤ m := by omega
    have harg : (1 / 2 : ℚ) * ((s.length : ℚ) - 1) = (m : ℚ) - 1 / 2 := by
      have h2 : s.length = 2 * m := by omega
      rw [h2]; push_cast; ring
    have hfl : ⌊(1 / 2 : ℚ) * ((s.length : ℚ) - 1)⌋ = (m : ℤ) - 1 := by
      rw [harg, Int.floor_eq_iff]
      push_cast
      constructor
      · linarith
      · linarith
    have htn : ((m : ℤ) - 1).toNat = m - 1 := by omega
    have hmin : min (m - 1 + 1) (s.length - 1) = m := by omega
    have hcast : ((m - 1 : ℕ) : ℚ) = (m : ℚ) - 1 := by
      push_cast [Nat.cast_sub hm1]; ring
    have hmod : ¬ s.length % 2 = 1 := by omega
    have hdiv : s.length / 2 = m := by omega
    simp only [interpAt]
    rw [hfl, htn, hmin, harg, hcast, if_neg hmod, hdiv]
    ring
  · obtain ⟨m, hm⟩ := ho
    have harg : (1 / 2 : ℚ) * ((s.length : ℚ) - 1) = (m : ℚ) := by
      rw [hm]; push_cast; ring
    have hfl : ⌊(1 / 2 : ℚ) * ((s.length : ℚ) - 1)⌋ = (m : ℤ) := by
      rw [harg, Int.floor_natCast]
    have hmod : s.length % 2 = 1 := by omega
    have hdiv : s.length / 2 = m := by omega
    simp only [interpAt]
    rw [hfl, Int.toNat_natCast, harg, if_pos hmod, hdiv]
    ring

/-- The function `np.median` agrees with the spec's 50% quantile. -/
theorem npMedian_eq_quantileSpec (l : List ℚ) (hl : l ≠ []) :
    npMedian l = quantileSpec l (1 / 2) := by
  have hs : List.insertionSort (fun a b => a ≤ b) l ≠ [] := by
    intro h
    apply hl
    have hlen := List.length_insertionSort (fun a b => a ≤ b) l
    rw [h] at hlen
    exact List.length_eq_zero.mp hlen.symm
  unfold npMedian quantileSpec
  rw [interp_half _ hs]

/-- The source's 100-scaled percentile agrees with the spec's quantile. -/
theorem percentile_eq_quantileSpec (l : List ℚ) (q : ℚ) :
    percentile l q = quantileSpec l (q / 100) := by
  unfold percentile quantileSpec
  ring_nf

theorem getD_map_lt {α β : Type} (f : α → β) (l : List α) (j : ℕ)
    (da : α) (db : β) (hj : j < l.length) :
    (l.map f).getD j db = f (l.getD j da) := by
  rw [List.getD_eq_getElem?_getD, List.getD_eq_getElem?_getD, List.getElem?_map,
    List.getElem?_eq_getElem hj]
  rfl

theorem getD_zipWith_lt (g : ℚ → ℚ → ℚ) (as bs : List ℚ) (j : ℕ)
    (hja : j < as.length) (hjb : j < bs.length) :
    (List.zipWith g as bs).getD j 0 = g (as.getD j 0) (bs.getD j 0) := by
  rw [List.getD_eq_getElem?_getD, List.getD_eq_getElem?_getD,
    List.getD_eq_getElem?_getD, List.getElem?_zipWith,
    List.getElem?_eq_getElem hja, List.getElem?_eq_getElem hjb]
  rfl

theorem bex_or (k : ℕ) (P Q : ℕ → Prop) :
    (∃ j < k, P j ∨ Q j) ↔ (∃ j < k, P j) ∨ (∃ j < k, Q j) := by
  constructor
  · rintro ⟨j, hj, h | h⟩
    · exact Or.inl ⟨j, hj, h⟩
    · exact Or.inr ⟨j, hj, h⟩
  · rintro (⟨j, hj, h⟩ | ⟨j, hj, h⟩)
    · exact ⟨j, hj, Or.inl h⟩
    · exact ⟨j, hj, Or.inr h⟩

/-- The boolean failure test of the source
(`np.any(reference < lower - tol) or np.any(reference > upper + tol)`)
holds exactly when some output dimension fails in the spec's sense. -/
theorem decisionFails_iff (stats : Replicates) (reference : Val)
    (alpha ac rtol atol : ℚ)
    (hs : stats.ndim ≤ 2) (href : RefCompat reference stats) :
    decisionFails (recordOf stats reference alpha ac rtol atol) = true ↔
      specFails (recordOf stats reference alpha ac rtol atol) stats.outDims := by
  cases stats with
  | tensor d fl => simp [Replicates.ndim] at hs
  | scalar xs =>
      cases reference with
      | s x =>
          simp only [recordOf, buildResult, decisionFails, specFails, Val.map,
            Val.zipWith, Val.anyRel, Val.atD, Replicates.outDims,
            Bool.or_eq_true, decide_eq_true_eq]
          constructor
          · rintro (h | h)
            · exact ⟨0, Nat.one_pos, Or.inl h⟩
            · exact ⟨0, Nat.one_pos, Or.inr h⟩
          · rintro ⟨j, _, h | h⟩
            · exact Or.inl h
            · exact Or.inr h
      | v zs =>
          obtain ⟨z, hz⟩ := List.length_eq_one.mp href
          subst hz
          simp only [recordOf, buildResult, decisionFails, specFails, Val.map,
            Val.zipWith, Val.anyRel, Val.atD, Replicates.outDims, List.map_cons,
            List.map_nil, List.zipWith_cons_cons, List.zipWith_nil_right,
            List.any_cons, List.any_nil, id, Bool.or_eq_true, Bool.or_false,
            decide_eq_true_eq]
          constructor
          · rintro (h | h)
            · exact ⟨0, Nat.one_pos, Or.inl h⟩
            · exact ⟨0, Nat.one_pos, Or.inr h⟩
          · rintro ⟨j, hj, h⟩
            have hj0 : j = 0 := by omega
            subst hj0
            simpa using h
  | vector k rows =>
      have hlow : ∀ q : ℚ, ((List.range k).map (fun j =>
          percentile ((Replicates.vector k rows).col j) q)).length = k := by
        intro q; simp
      cases reference with
      | s x =>
          simp only [recordOf, buildResult, decisionFails, specFails, Val.map,
            Val.zipWith, Val.anyRel, Val.atD, Replicates.outDims,
            Bool.or_eq_true]
          rw [List.any_map, List.any_map, any_getD, any_getD]
          simp only [hlow, Function.comp, decide_eq_true_eq]
          rw [← bex_or]
      | v zs =>
          have hz : zs.length = k := href
          simp only [recordOf, buildResult, decisionFails, specFails, Val.map,
            Val.zipWith, Val.anyRel, Val.atD, Replicates.outDims,
            Bool.or_eq_true]
          set L := (List.range k).map (fun j =>
            percentile ((Replicates.vector k rows).col j) (100 * ac / 2))
            with hLdef
          set U := (List.range k).map (fun j =>
            percentile ((Replicates.vector k rows).col j) (100 * (1 - ac / 2)))
            with hUdef
          have hL : L.length = k := by simp [hLdef]
          have hU : U.length = k := by simp [hUdef]
          rw [any_zipWith_getD _ _ _ (by simp [hz, hL]),
            any_zipWith_getD _ _ _ (by simp [hz, hU])]
          simp only [hz, decide_eq_true_eq]
          rw [← bex_or]
          have e1 : ∀ j, j < k →
              (List.zipWith (fun a b => a - b) L
                (zs.map (fun r => atol + rtol * |r|))).getD j 0 =
                L.getD j 0 - (atol + rtol * |zs.getD j 0|) := by
            intro j hj
            rw [getD_zipWith_lt _ _ _ _ (by rw [hL]; exact hj)
                (by simpa [hz] using hj),
              getD_map_lt (fun r => atol + rtol * |r|) zs j 0 0
                (by rw [hz]; exact hj)]
          have e2 : ∀ j, j < k →
              (List.zipWith (fun a b => a + b) U
                (zs.map (fun r => atol + rtol * |r|))).getD j 0 =
                U.getD j 0 + (atol + rtol * |zs.getD j 0|) := by
            intro j hj
            rw [getD_zipWith_lt _ _ _ _ (by rw [hU]; exact hj)
                (by simpa [hz] using hj),
              getD_map_lt (fun r => atol + rtol * |r|) zs j 0 0
                (by rw [hz]; exact hj)]
          have e3 : ∀ j, j < k →
              (zs.map (fun r => atol + rtol * |r|)).getD j 0 =
                atol + rtol * |zs.getD j 0| := by
            intro j hj
            exact getD_map_lt (fun r => atol + rtol * |r|) zs j 0 0
              (by rw [hz]; exact hj)
          constructor
          · rintro ⟨j, hj, h⟩
            refine ⟨j, hj, ?_⟩
            rw [e1 j hj, e2 j hj] at h
            rwa [e3 j hj]
          · rintro ⟨j, hj, h⟩
            refine ⟨j, hj, ?_⟩
            rw [e3 j hj] at h
            rwa [e1 j hj, e2 j hj]

/-- On every collection the dimensionality check accepts, with an accepted
correction argument, the pre-decision stage succeeds and computes the
corrected level the spec prescribes. -/
theorem computeResult_ok (stats : Replicates) (reference : Val)
    (alpha rtol atol : ℚ) (mhc : Correction) (numBootstrap : ℕ)
    (hs : stats.ndim ≤ 2) (hm : CorrectionOK mhc stats) :
    computeResult stats reference alpha rtol atol mhc numBootstrap =
      (smallWarn (alphaCorrectedSpec mhc alpha stats) numBootstrap,
        .ok (alphaCorrectedSpec mhc alpha stats,
          recordOf stats reference alpha (alphaCorrectedSpec mhc alpha stats)
            rtol atol)) := by
  cases stats with
  | tensor d fl => simp [Replicates.ndim] at hs
  | scalar xs => simp [computeResult, alphaCorrectedSpec]
  | vector k rows =>
      rcases hm with hm | hm
      · subst hm
        simp [computeResult, alphaCorrectedSpec, Correction.truthy]
      · subst hm
        simp [computeResult, alphaCorrectedSpec]

end PytestBootstrap

namespace PytestBootstrap

/-!
### Claim theorems
-/

/-- C6: a stacked replicate collection of more than two dimensions makes
`bootstrap_test` fail with the dimension error immediately — for every
content of the collection, every configuration, with no warning and no
partial result. -/
theorem C6_dimension_guard (stats : Replicates) (reference : Val)
    (alpha rtol atol : ℚ) (mhc : Correction) (numBootstrap : ℕ)
    (on_fail : String) (hs : 2 < stats.ndim) :
    bootstrap_test stats reference alpha rtol atol mhc numBootstrap on_fail =
      ([], .error (.dimension stats.ndim)) := by
  cases stats with
  | scalar xs => simp [Replicates.ndim] at hs
  | vector k rows => simp [Replicates.ndim] at hs
  | tensor d fl => rfl

theorem C6_dimension_guard_witness :
    bootstrap_test (.tensor 0 []) (.s 0) (1 / 100) 0 0 .disabled 1000 "raise" =
      ([], .error (.dimension 3)) :=
  C6_dimension_guard (.tensor 0 []) (.s 0) (1 / 100) 0 0 .disabled 1000 "raise"
    (by simp [Replicates.ndim])

/-- C9: for a fixed collection and reference, the tolerance parameters
`rtol` and `atol` leave the computed interval and summary fields (`lower`,
`upper`, `median`, `iqr` and the z-score data) unchanged; they enter only
the record's `tol` field and the accept/reject decision. -/
theorem C9_tolerance_frame (stats : Replicates) (reference : Val)
    (alpha rtol atol rtol' atol' : ℚ) (mhc : Correction) (numBootstrap : ℕ) :
    fieldsView (computeResult stats reference alpha rtol atol mhc numBootstrap) =
      fieldsView (computeResult stats reference alpha rtol' atol' mhc
        numBootstrap) := by
  cases stats with
  | tensor d fl => rfl
  | scalar xs => rfl
  | vector k rows =>
      unfold computeResult fieldsView recOf
      split_ifs <;> rfl

/-- C2: the `alpha_corrected` entry of the returned dictionary.  The local
variable `alpha_corrected` is `alpha / k` under Bonferroni correction of a
two-dimensional collection, but the source populates the dictionary entry
with `alpha`: the record reports `alpha`, not `alpha / k`, contradicting the
function's own docstring. -/
theorem C2_alpha_corrected_bug :
    acOf (computeResult (.vector 2 [[0, 1], [2, 3]]) (.s 0) (1 / 10) 0 0
        (.policy "bonferroni") 100) = some (1 / 20) ∧
    (recOf (computeResult (.vector 2 [[0, 1], [2, 3]]) (.s 0) (1 / 10) 0 0
        (.policy "bonferroni") 100)).map (fun r => r.alpha_corrected) =
      some (1 / 10) ∧
    (1 / 10 : ℚ) ≠ 1 / 20 := by
  refine ⟨?_, ?_, by norm_num⟩
  · simp [computeResult, acOf]
    norm_num
  · simp [computeResult, recOf, recordOf, buildResult]

/-- The decision/routing stage of `bootstrap_test`, expressed on the second
component only. -/
theorem bootstrap_test_snd (stats : Replicates) (reference : Val)
    (alpha rtol atol : ℚ) (mhc : Correction) (numBootstrap : ℕ)
    (on_fail : String) :
    (bootstrap_test stats reference alpha rtol atol mhc numBootstrap
        on_fail).2 =
      (match (computeResult stats reference alpha rtol atol mhc
          numBootstrap).2 with
       | .error e => .error e
       | .ok (_, r) =>
          if decisionFails r then
            if on_fail = "raise" then .error (.testError ⟨r, btMessage r⟩)
            else if on_fail = "warn" then .ok { r with statistics := some stats }
            else .error (.invalidOnFail on_fail)
          else .ok { r with statistics := some stats }) := by
  unfold bootstrap_test
  rcases hcr : computeResult stats reference alpha rtol atol mhc numBootstrap
    with ⟨ws, res⟩
  cases res with
  | error e => rfl
  | ok p =>
      rcases p with ⟨ac, r⟩
      by_cases hd : decisionFails r
      · simp only [hd, if_true]
        by_cases hr : on_fail = "raise"
        · simp [hr]
        · by_cases hw : on_fail = "warn" <;> simp [hr, hw]
      · simp [hd]

/-- C3 counterexample: the literal policy name `"none"` is a truthy string,
so the source raises the unsupported-correction error for it instead of
disabling correction. -/
theorem C3_policy_none_cex :
    (bootstrap_test (.vector 2 [[0, 1], [2, 3]]) (.s 0) (1 / 100) 0 0
        (.policy "none") 1000 "raise").2 =
      .error (.unsupportedCorrection "none") := by
  rw [bootstrap_test_snd]
  have h : (computeResult (.vector 2 [[0, 1], [2, 3]]) (.s 0) (1 / 100) 0 0
      (.policy "none") 1000).2 = .error (.unsupportedCorrection "none") := by
    simp [computeResult, Correction.truthy, Correction.render]
  rw [h]

/-- C3 amended: for a two-dimensional collection, the unsupported-correction
error is raised — with no interval computed and no warning emitted — exactly
when the correction argument is truthy and differs from `"bonferroni"`;
correction is disabled by a falsy argument (Python `False` / `None`), which
yields `alpha_corrected = alpha` and no error. -/
theorem C3_unsupported_correction (k : ℕ) (rows : List (List ℚ))
    (reference : Val) (alpha rtol atol : ℚ) (mhc : Correction)
    (numBootstrap : ℕ) (on_fail : String) :
    (mhc.truthy = true ∧ mhc ≠ .policy "bonferroni" →
      bootstrap_test (.vector k rows) reference alpha rtol atol mhc
          numBootstrap on_fail =
        ([], .error (.unsupportedCorrection mhc.render))) ∧
    (¬ (mhc.truthy = true ∧ mhc ≠ .policy "bonferroni") →
      ∀ nm, (bootstrap_test (.vector k rows) reference alpha rtol atol mhc
          numBootstrap on_fail).2 ≠ .error (.unsupportedCorrection nm)) ∧
    (mhc = .disabled →
      acOf (computeResult (.vector k rows) reference alpha rtol atol mhc
          numBootstrap) = some alpha) := by
  refine ⟨?_, ?_, ?_⟩
  · rintro ⟨ht, hb⟩
    have h : computeResult (.vector k rows) reference alpha rtol atol mhc
        numBootstrap = ([], .error (.unsupportedCorrection mhc.render)) := by
      simp [computeResult, hb, ht]
    simp [bootstrap_test, h]
  · intro hn nm
    have hok : ∃ p, (computeResult (.vector k rows) reference alpha rtol atol
        mhc numBootstrap).2 = .ok p := by
      by_cases hb : mhc = .policy "bonferroni"
      · subst hb
        simp [computeResult]
      · have ht : mhc.truthy = false := by
          cases hcon : mhc.truthy
          · rfl
          · exact absurd ⟨hcon, hb⟩ hn
        simp [computeResult, hb, ht]
    obtain ⟨p, hp⟩ := hok
    rw [bootstrap_test_snd, hp]
    rcases p with ⟨ac, r⟩
    by_cases hd : decisionFails r
    · simp only [hd, if_true]
      split_ifs <;> simp
    · simp [hd]
  · intro hm
    subst hm
    simp [computeResult, acOf, Correction.truthy]

theorem C3_unsupported_correction_witness :
    bootstrap_test (.vector 2 [[0, 1], [2, 3]]) (.s 0) (1 / 100) 0 0
        (.policy "holm") 1000 "raise" =
      ([], .error (.unsupportedCorrection "holm")) :=
  (C3_unsupported_correction 2 [[0, 1], [2, 3]] (.s 0) (1 / 100) 0 0
    (.policy "holm") 1000 "raise").1 ⟨by simp [Correction.truthy], by simp⟩

/-- C8 counterexample: a call rejected by the dimensionality check emits no
warning at all, even though the requested tail probability is far below the
resampling resolution — so "warning iff `alpha_corrected < 1 / R`" fails on
such calls. -/
theorem C8_no_warning_cex :
    Warn.smallSample 1000 ∉
      (bootstrap_test (.tensor 0 []) (.s 0) (1 / 1000000000) 0 0 .disabled
        1000 "raise").1 ∧
    (1 / 1000000000 : ℚ) < 1 / (1000 : ℚ) := by
  constructor
  · have h : (bootstrap_test (.tensor 0 []) (.s 0) (1 / 1000000000) 0 0
        .disabled 1000 "raise").1 = [] := rfl
    rw [h]
    simp
  · norm_num

/-- C8 amended: for every call that passes the dimensionality and correction
checks, the small-sample warning is emitted iff
`alpha_corrected < 1 / num_bootstrap_samples`, regardless of `on_fail` and
of the decision outcome; and `num_bootstrap_samples` never influences the
returned record or error, only this warning. -/
theorem C8_small_sample (stats : Replicates) (reference : Val)
    (alpha rtol atol : ℚ) (mhc : Correction) (numBootstrap : ℕ)
    (on_fail : String) (hs : stats.ndim ≤ 2) (hm : CorrectionOK mhc stats) :
    (Warn.smallSample numBootstrap ∈
        (bootstrap_test stats reference alpha rtol atol mhc numBootstrap
          on_fail).1 ↔
      alphaCorrectedSpec mhc alpha stats < 1 / (numBootstrap : ℚ)) ∧
    ∀ numBootstrap' : ℕ,
      (bootstrap_test stats reference alpha rtol atol mhc numBootstrap
        on_fail).2 =
      (bootstrap_test stats reference alpha rtol atol mhc numBootstrap'
        on_fail).2 := by
  have h := computeResult_ok stats reference alpha rtol atol mhc numBootstrap
    hs hm
  constructor
  · unfold bootstrap_test
    rw [h]
    by_cases hc : alphaCorrectedSpec mhc alpha stats < 1 / (numBootstrap : ℚ)
    · simp only [smallWarn, if_pos hc]
      have hc' : alphaCorrectedSpec mhc alpha stats < ((numBootstrap : ℚ))⁻¹ := by
        rwa [one_div] at hc
      split_ifs <;> simp [hc']
    · simp only [smallWarn, if_neg hc]
      have hc' : ¬ alphaCorrectedSpec mhc alpha stats < ((numBootstrap : ℚ))⁻¹ := by
        rwa [one_div] at hc
      split_ifs <;> simp [hc']
  · intro numBootstrap'
    have h' := computeResult_ok stats reference alpha rtol atol mhc
      numBootstrap' hs hm
    rw [bootstrap_test_snd, bootstrap_test_snd, h, h']

theorem C8_small_sample_witness :
    Warn.smallSample 1000 ∈
      (bootstrap_test (.scalar [1, 2]) (.s 1) (1 / 1000000000) 0 0 .disabled
        1000 "raise").1 :=
  ((C8_small_sample (.scalar [1, 2]) (.s 1) (1 / 1000000000) 0 0 .disabled
    1000 "raise" (by simp [Replicates.ndim]) trivial).1).mpr
    (by norm_num [alphaCorrectedSpec])

/-- C1: with `on_fail = "raise"`, the call raises the bootstrap-test error
exactly when some output dimension has the reference outside the
tolerance-widened interval; otherwise the result record (with the replicate
collection attached) is returned, and no failure warning is ever emitted on
the raise route. -/
theorem C1_raise_routing (stats : Replicates) (reference : Val)
    (alpha rtol atol : ℚ) (mhc : Correction) (numBootstrap : ℕ)
    (hs : stats.ndim ≤ 2) (hm : CorrectionOK mhc stats)
    (href : RefCompat reference stats) :
    (specFails (recordOf stats reference alpha
        (alphaCorrectedSpec mhc alpha stats) rtol atol) stats.outDims →
      bootstrap_test stats reference alpha rtol atol mhc numBootstrap
          "raise" =
        (smallWarn (alphaCorrectedSpec mhc alpha stats) numBootstrap,
          .error (.testError
            { result := recordOf stats reference alpha
                (alphaCorrectedSpec mhc alpha stats) rtol atol,
              message := btMessage (recordOf stats reference alpha
                (alphaCorrectedSpec mhc alpha stats) rtol atol) }))) ∧
    (¬ specFails (recordOf stats reference alpha
        (alphaCorrectedSpec mhc alpha stats) rtol atol) stats.outDims →
      bootstrap_test stats reference alpha rtol atol mhc numBootstrap
          "raise" =
        (smallWarn (alphaCorrectedSpec mhc alpha stats) numBootstrap,
          .ok { recordOf stats reference alpha
              (alphaCorrectedSpec mhc alpha stats) rtol atol with
            statistics := some stats })) ∧
    ∀ e, Warn.testFail e ∉
      (bootstrap_test stats reference alpha rtol atol mhc numBootstrap
        "raise").1 := by
  have h := computeResult_ok stats reference alpha rtol atol mhc numBootstrap
    hs hm
  have hiff := decisionFails_iff stats reference alpha
    (alphaCorrectedSpec mhc alpha stats) rtol atol hs href
  refine ⟨?_, ?_, ?_⟩
  · intro hsp
    have hd := hiff.mpr hsp
    unfold bootstrap_test
    rw [h]
    simp [hd]
  · intro hsp
    have hd : decisionFails (recordOf stats reference alpha
        (alphaCorrectedSpec mhc alpha stats) rtol atol) = false := by
      cases hdc : decisionFails (recordOf stats reference alpha
        (alphaCorrectedSpec mhc alpha stats) rtol atol)
      · rfl
      · exact absurd (hiff.mp hdc) hsp
    unfold bootstrap_test
    rw [h]
    simp [hd]
  · intro e
    unfold bootstrap_test
    rw [h]
    by_cases hd : decisionFails (recordOf stats reference alpha
        (alphaCorrectedSpec mhc alpha stats) rtol atol) = true
    · simp only [hd, if_true]
      simp [smallWarn]
    · simp [hd, smallWarn]

theorem C1_raise_routing_witness :
    bootstrap_test (.scalar [1, 2]) (.s 3) (1 / 2) 0 0 .disabled 4 "raise" =
      (smallWarn (alphaCorrectedSpec .disabled (1 / 2) (.scalar [1, 2])) 4,
        .error (.testError
          { result := recordOf (.scalar [1, 2]) (.s 3) (1 / 2)
              (alphaCorrectedSpec .disabled (1 / 2) (.scalar [1, 2])) 0 0,
            message := btMessage (recordOf (.scalar [1, 2]) (.s 3) (1 / 2)
              (alphaCorrectedSpec .disabled (1 / 2) (.scalar [1, 2])) 0 0) })) :=
  (C1_raise_routing (.scalar [1, 2]) (.s 3) (1 / 2) 0 0 .disabled 4
    (by simp [Replicates.ndim]) trivial trivial).1
    ⟨0, Nat.one_pos, Or.inr (by
      simp [recordOf, buildResult, alphaCorrectedSpec, percentile, interpAt,
        Val.atD, Val.map, List.insertionSort, List.orderedInsert]
      norm_num)⟩

/-- C7: an `on_fail` value other than `"raise"` and `"warn"` is reported
(as the invalid-configuration error) exactly when the tolerance check fails;
when the reference lies inside the tolerance-widened interval the record is
returned normally and the bad value goes unreported. -/
theorem C7_invalid_on_fail (stats : Replicates) (reference : Val)
    (alpha rtol atol : ℚ) (mhc : Correction) (numBootstrap : ℕ)
    (on_fail : String) (hs : stats.ndim ≤ 2) (hm : CorrectionOK mhc stats)
    (href : RefCompat reference stats)
    (h1 : on_fail ≠ "raise") (h2 : on_fail ≠ "warn") :
    ((bootstrap_test stats reference alpha rtol atol mhc numBootstrap
        on_fail).2 = .error (.invalidOnFail on_fail) ↔
      specFails (recordOf stats reference alpha
        (alphaCorrectedSpec mhc alpha stats) rtol atol) stats.outDims) ∧
    (¬ specFails (recordOf stats reference alpha
        (alphaCorrectedSpec mhc alpha stats) rtol atol) stats.outDims →
      bootstrap_test stats reference alpha rtol atol mhc numBootstrap
          on_fail =
        (smallWarn (alphaCorrectedSpec mhc alpha stats) numBootstrap,
          .ok { recordOf stats reference alpha
              (alphaCorrectedSpec mhc alpha stats) rtol atol with
            statistics := some stats })) := by
  have h := computeResult_ok stats reference alpha rtol atol mhc numBootstrap
    hs hm
  have hiff := decisionFails_iff stats reference alpha
    (alphaCorrectedSpec mhc alpha stats) rtol atol hs href
  constructor
  · unfold bootstrap_test
    rw [h]
    by_cases hd : decisionFails (recordOf stats reference alpha
        (alphaCorrectedSpec mhc alpha stats) rtol atol) = true
    · simp [hd, h1, h2]
      exact hiff.mp hd
    · simp [hd]
      intro hsp
      exact absurd (hiff.mpr hsp) hd
  · intro hsp
    have hd : decisionFails (recordOf stats reference alpha
        (alphaCorrectedSpec mhc alpha stats) rtol atol) = false := by
      cases hdc : decisionFails (recordOf stats reference alpha
        (alphaCorrectedSpec mhc alpha stats) rtol atol)
      · rfl
      · exact absurd (hiff.mp hdc) hsp
    unfold bootstrap_test
    rw [h]
    simp [hd]

theorem C7_invalid_on_fail_witness :
    (bootstrap_test (.scalar [1, 2]) (.s 3) (1 / 2) 0 0 .disabled 4
      "boom").2 = .error (.invalidOnFail "boom") :=
  ((C7_invalid_on_fail (.scalar [1, 2]) (.s 3) (1 / 2) 0 0 .disabled 4 "boom"
    (by simp [Replicates.ndim]) trivial trivial (by simp) (by simp)).1).mpr
    ⟨0, Nat.one_pos, Or.inr (by
      simp [recordOf, buildResult, alphaCorrectedSpec, percentile, interpAt,
        Val.atD, Val.map, List.insertionSort, List.orderedInsert]
      norm_num)⟩

/-- C4 counterexample: on a raise-routed failure the error's record has no
`statistics` entry — the replicate collection is attached to the dictionary
only after the decision, which the raise skips. -/
theorem C4_missing_statistics_cex :
    (raisedRecord (bootstrap_test (.scalar [1, 2]) (.s 3) (1 / 2) 0 0
        .disabled 4 "raise")).map (fun r => r.statistics) = some none := by
  have h := computeResult_ok (.scalar [1, 2]) (.s 3) (1 / 2) 0 0 .disabled 4
    (by simp [Replicates.ndim]) trivial
  have hd : decisionFails (recordOf (.scalar [1, 2]) (.s 3) (1 / 2)
      (alphaCorrectedSpec .disabled (1 / 2) (.scalar [1, 2])) 0 0) = true := by
    simp [recordOf, buildResult, decisionFails, Val.anyRel, Val.zipWith,
      Val.map, alphaCorrectedSpec, percentile, interpAt, List.insertionSort,
      List.orderedInsert]
    norm_num
  unfold raisedRecord
  unfold bootstrap_test
  rw [h]
  simp only [hd, if_true]
  simp [recordOf, buildResult]

/-- C4 amended: the raised bootstrap-test error carries the result record
with all statistical fields and the formatted message (reference value,
alpha, interval bounds), but without the replicate collection, whose entry
is added only on the non-raising paths. -/
theorem C4_raise_payload (stats : Replicates) (reference : Val)
    (alpha rtol atol : ℚ) (mhc : Correction) (numBootstrap : ℕ)
    (hs : stats.ndim ≤ 2) (hm : CorrectionOK mhc stats)
    (hfail : decisionFails (recordOf stats reference alpha
      (alphaCorrectedSpec mhc alpha stats) rtol atol) = true) :
    (bootstrap_test stats reference alpha rtol atol mhc numBootstrap
        "raise").2 =
      .error (.testError
        { result := recordOf stats reference alpha
            (alphaCorrectedSpec mhc alpha stats) rtol atol,
          message := btMessage (recordOf stats reference alpha
            (alphaCorrectedSpec mhc alpha stats) rtol atol) }) ∧
    (recordOf stats reference alpha (alphaCorrectedSpec mhc alpha stats)
      rtol atol).statistics = none := by
  constructor
  · have h := computeResult_ok stats reference alpha rtol atol mhc
      numBootstrap hs hm
    unfold bootstrap_test
    rw [h]
    simp [hfail]
  · cases stats <;> rfl

theorem quantile_arg_low (ac : ℚ) : 100 * ac / 2 / 100 = ac / 2 := by ring

theorem quantile_arg_high (ac : ℚ) :
    100 * (1 - ac / 2) / 100 = 1 - ac / 2 := by ring

theorem popVar_eq_popVarSpec (l : List ℚ) : popVar l = popVarSpec l := by
  simp [popVar, popVarSpec, listMean]

/-- C5: the reported interval is the pair of empirical quantiles at
`alpha_corrected / 2` and `1 - alpha_corrected / 2` per output dimension by
linear interpolation between order statistics; the median is the 50%
quantile, the interquartile range the difference of the 75% and 25%
quantiles, and the z-score data are the deviation of the reference from the
replicate mean together with the population (divisor `n`) variance. -/
theorem C5_interval_estimator (stats : Replicates) (reference : Val)
    (alpha ac rtol atol : ℚ) (hs : stats.ndim ≤ 2) (hfl : stats.flat ≠ []) :
    (∀ j < stats.outDims,
      (recordOf stats reference alpha ac rtol atol).lower.atD j =
        quantileSpec (stats.col j) (ac / 2) ∧
      (recordOf stats reference alpha ac rtol atol).upper.atD j =
        quantileSpec (stats.col j) (1 - ac / 2)) ∧
    (recordOf stats reference alpha ac rtol atol).median =
      quantileSpec stats.flat (1 / 2) ∧
    (recordOf stats reference alpha ac rtol atol).iqr =
      quantileSpec stats.flat (3 / 4) - quantileSpec stats.flat (1 / 4) ∧
    (recordOf stats reference alpha ac rtol atol).z_num =
      reference.map (fun x => x - listMean stats.flat) ∧
    (recordOf stats reference alpha ac rtol atol).z_var =
      popVarSpec stats.flat := by
  have h75 : (75 : ℚ) / 100 = 3 / 4 := by norm_num
  have h25 : (25 : ℚ) / 100 = 1 / 4 := by norm_num
  cases stats with
  | tensor d fl => simp [Replicates.ndim] at hs
  | scalar xs =>
      refine ⟨?_, ?_, ?_, ?_, ?_⟩
      · intro j hj
        have hj0 : j = 0 := Nat.lt_one_iff.mp hj
        subst hj0
        constructor
        · simp only [recordOf, buildResult, Val.atD, Replicates.col]
          rw [percentile_eq_quantileSpec, quantile_arg_low]
        · simp only [recordOf, buildResult, Val.atD, Replicates.col]
          rw [percentile_eq_quantileSpec, quantile_arg_high]
      · simp only [recordOf, buildResult]
        exact npMedian_eq_quantileSpec xs hfl
      · simp only [recordOf, buildResult, Replicates.flat]
        rw [percentile_eq_quantileSpec, percentile_eq_quantileSpec, h75, h25]
      · rfl
      · exact popVar_eq_popVarSpec xs
  | vector k rows =>
      refine ⟨?_, ?_, ?_, ?_, ?_⟩
      · intro j hj
        have hjk : j < k := hj
        have hr : (List.range k).getD j 0 = j := by
          rw [List.getD_eq_getElem?_getD,
            List.getElem?_eq_getElem (by simpa using hjk)]
          simp
        constructor
        · simp only [recordOf, buildResult, Val.atD]
          rw [getD_map_lt (fun i =>
              percentile ((Replicates.vector k rows).col i) (100 * ac / 2))
              (List.range k) j 0 0 (by simpa using hjk), hr,
            percentile_eq_quantileSpec, quantile_arg_low]
        · simp only [recordOf, buildResult, Val.atD]
          rw [getD_map_lt (fun i =>
              percentile ((Replicates.vector k rows).col i)
                (100 * (1 - ac / 2)))
              (List.range k) j 0 0 (by simpa using hjk), hr,
            percentile_eq_quantileSpec, quantile_arg_high]
      · simp only [recordOf, buildResult]
        exact npMedian_eq_quantileSpec rows.flatten hfl
      · simp only [recordOf, buildResult, Replicates.flat]
        rw [percentile_eq_quantileSpec, percentile_eq_quantileSpec, h75, h25]
      · rfl
      · exact popVar_eq_popVarSpec rows.flatten

theorem C5_interval_estimator_witness :
    (recordOf (.scalar [1, 2]) (.s 0) (1 / 2) (1 / 2) 0 0).median =
      quantileSpec [1, 2] (1 / 2) :=
  (C5_interval_estimator (.scalar [1, 2]) (.s 0) (1 / 2) (1 / 2) 0 0
    (by simp [Replicates.ndim]) (by simp [Replicates.flat])).2.1

/-- C10: for a vector statistic the record's `median` and `iqr` are single
scalars computed from the flattened collection (all output dimensions
pooled), while `lower` and `upper` are per-output-dimension vectors. -/
theorem C10_pooled_median_iqr (k : ℕ) (rows : List (List ℚ))
    (reference : Val) (alpha rtol atol : ℚ) (mhc : Correction)
    (numBootstrap : ℕ) (hm : CorrectionOK mhc (.vector k rows)) :
    (recOf (computeResult (.vector k rows) reference alpha rtol atol mhc
        numBootstrap)).map (fun r => r.median) =
      some (npMedian rows.flatten) ∧
    (recOf (computeResult (.vector k rows) reference alpha rtol atol mhc
        numBootstrap)).map (fun r => r.iqr) =
      some (percentile rows.flatten 75 - percentile rows.flatten 25) ∧
    (recOf (computeResult (.vector k rows) reference alpha rtol atol mhc
        numBootstrap)).map (fun r => r.lower) =
      some (.v ((List.range k).map (fun j =>
        percentile ((Replicates.vector k rows).col j)
          (100 * alphaCorrectedSpec mhc alpha (.vector k rows) / 2)))) ∧
    (recOf (computeResult (.vector k rows) reference alpha rtol atol mhc
        numBootstrap)).map (fun r => r.upper) =
      some (.v ((List.range k).map (fun j =>
        percentile ((Replicates.vector k rows).col j)
          (100 * (1 - alphaCorrectedSpec mhc alpha (.vector k rows) / 2))))) := by
  rw [computeResult_ok _ _ _ _ _ _ _ (by simp [Replicates.ndim]) hm]
  simp [recOf, recordOf, buildResult]

theorem C10_pooled_median_iqr_witness :
    (recOf (computeResult (.vector 2 [[1, 2], [3, 4]]) (.s 0) (1 / 10) 0 0
        .disabled 100)).map (fun r => r.median) =
      some (npMedian [[1, 2], [3, 4]].flatten) :=
  (C10_pooled_median_iqr 2 [[1, 2], [3, 4]] (.s 0) (1 / 10) 0 0 .disabled 100
    (Or.inl rfl)).1

theorem C4_raise_payload_witness :
    (bootstrap_test (.scalar [1, 2]) (.s 3) (1 / 2) 0 0 .disabled 4
        "raise").2 =
      .error (.testError
        { result := recordOf (.scalar [1, 2]) (.s 3) (1 / 2)
            (alphaCorrectedSpec .disabled (1 / 2) (.scalar [1, 2])) 0 0,
          message := btMessage (recordOf (.scalar [1, 2]) (.s 3) (1 / 2)
            (alphaCorrectedSpec .disabled (1 / 2) (.scalar [1, 2])) 0 0) }) :=
  (C4_raise_payload (.scalar [1, 2]) (.s 3) (1 / 2) 0 0 .disabled 4
    (by simp [Replicates.ndim]) trivial (by
      simp [recordOf, buildResult, decisionFails, Val.anyRel, Val.zipWith,
        Val.map, alphaCorrectedSpec, percentile, interpAt,
        List.insertionSort, List.orderedInsert]
      norm_num)).1

end PytestBootstrap
